import Mathlib

/-!
Verification of the reconciliation logic of `src/lib/ElasticsearchDAO.ts`
(Informatievlaanderen/OSLO-Knowledge-Graph).

The search engine is a black box; we model it by its observable behaviour:
a `search` function from (index, type, queried URI) to the list of hits it
returns, and a set of existing index names for the bootstrap code.  The
functions of `ElasticsearchDAO` are embedded as pure Lean functions over
that model; the bulk submissions an operation makes are returned explicitly
as a list of bulk bodies.
-/

namespace ElasticsearchDAO

/-- Modelled from the spec: the `ITerm` interface (imported from
`./Term`, a file not present in the sources) describes a Record with a
URI, a preferred label, a definition and a context, the four fields the
DAO reads (`term.prefLabel`, `term.URI`, `term.definition`,
`term.context`). -/
structure ITerm where
  prefLabel : String
  URI : String
  definition : String
  context : String
deriving DecidableEq

/-- One hit of a search result: the engine-assigned identifier `_id` and
the stored document `_source` (of which the code reads the `URI` field). -/
structure Hit where
  _id : String
  _source : ITerm
deriving DecidableEq

/-- The engine search primitive, as observed by `getId`: from the index,
the type and the queried URI to the hit list `result.hits.hits`. -/
abbrev SearchFn := String → String → String → List Hit

/-- `getId(uri, index, type, client)` (lines 36-52): searches the engine
with a match query on the URI field, then post-filters
`result.hits.hits.find(obj => obj._source.URI === uri)` and returns
`object ? object._id : null`. -/
def getId (search : SearchFn) (uri index type : String) : Option String :=
  let result := search index type uri
  let object := result.find? (fun obj => obj._source.URI == uri)
  object.map (fun obj => obj._id)

/-- Helper: an identifier returned by `getId` is the `_id` of a hit of the
result set whose stored URI is exactly the queried URI. -/
theorem getId_spec (search : SearchFn) (uri index type id : String)
    (h : getId search uri index type = some id) :
    ∃ hit, hit ∈ search index type uri ∧ hit._source.URI = uri ∧ hit._id = id := by
  unfold getId at h
  simp only [Option.map_eq_some'] at h
  obtain ⟨hit, hfind, hid⟩ := h
  exact ⟨hit, List.mem_of_find?_eq_some hfind,
    by simpa using List.find?_some hfind, hid⟩

/-- C1: for every search result set and target URI, `getId` returns the
engine-assigned identifier only of a hit whose stored URI field is exactly
string-equal to the target URI; a hit whose URI merely approximately
matches is never selected. -/
theorem getId_exact_match_only (search : SearchFn) (uri index type id : String)
    (h : getId search uri index type = some id) :
    ∃ hit, hit ∈ search index type uri ∧ hit._source.URI = uri ∧ hit._id = id :=
  getId_spec search uri index type id h

/-- Witness for C1: on the result set with URIs `["ab", "a", "a"]` and
target `"a"`, `getId` returns an identifier, and it belongs to a hit whose
URI is exactly `"a"`. -/
theorem getId_exact_match_only_witness :
    ∃ hit,
      hit ∈ [Hit.mk "i1" ⟨"l1", "ab", "d1", "c1"⟩,
             Hit.mk "i2" ⟨"l2", "a", "d2", "c2"⟩,
             Hit.mk "i3" ⟨"l3", "a", "d3", "c3"⟩] ∧
      hit._source.URI = "a" ∧ hit._id = "i2" :=
  getId_exact_match_only
    (fun _ _ _ => [Hit.mk "i1" ⟨"l1", "ab", "d1", "c1"⟩,
                   Hit.mk "i2" ⟨"l2", "a", "d2", "c2"⟩,
                   Hit.mk "i3" ⟨"l3", "a", "d3", "c3"⟩])
    "a" "oslo-terminology" "vocabularies" "i2" (by decide)

/-- C2: whenever no hit of the result set has a URI exactly equal to the
target, `getId` returns null (`none`), even if the result set is
non-empty. -/
theorem getId_none_of_no_exact_match (search : SearchFn) (uri index type : String)
    (h : ∀ hit ∈ search index type uri, hit._source.URI ≠ uri) :
    getId search uri index type = none := by
  unfold getId
  simp only [Option.map_eq_none', List.find?_eq_none]
  intro hit hmem
  simpa using h hit hmem

/-- Witness for C2: on the non-empty result set with URIs `["ab", "aa"]`
and target `"a"`, `getId` returns `none`. -/
theorem getId_none_of_no_exact_match_witness :
    getId (fun _ _ _ => [Hit.mk "i1" ⟨"l1", "ab", "d1", "c1"⟩,
                         Hit.mk "i2" ⟨"l2", "aa", "d2", "c2"⟩])
      "a" "oslo-terminology" "vocabularies" = none :=
  getId_none_of_no_exact_match _ "a" "oslo-terminology" "vocabularies" (by decide)

/-- JavaScript truthiness of the `id` value tested by `if (!id)`:
`null` is falsy, and so is the empty string. -/
def jsTruthy : Option String → Bool
  | none => false
  | some s => !(s == "")

/-- The partial document pushed as `{doc: {...}}` of an update directive:
it carries exactly the fields `prefLabel`, `URI`, `definition` and
`context`, and no engine identifier. -/
structure UpdateDoc where
  prefLabel : String
  URI : String
  definition : String
  context : String
deriving DecidableEq

/-- One element of the `bulk` array: an insert directive
`{index: {_index, _type}}`, an update directive
`{update: {_index, _type, _id}}`, the full term payload, or the partial
`{doc: ...}` payload of an update. -/
inductive BulkEntry where
  | indexDirective (_index _type : String)
  | updateDirective (_index _type _id : String)
  | termPayload (term : ITerm)
  | docPayload (doc : UpdateDoc)
deriving DecidableEq

/-- The loop body of `updateVocabulary` (lines 57-85) for one term: the
two entries pushed onto `bulk` for that term. -/
def vocabEntries (search : SearchFn) (term : ITerm) : List BulkEntry :=
  let id := getId search term.URI "oslo-terminology" "vocabularies"
  if !(jsTruthy id) then
    [BulkEntry.indexDirective "oslo-terminology" "vocabularies",
     BulkEntry.termPayload term]
  else
    [BulkEntry.updateDirective "oslo-terminology" "vocabularies" (id.getD ""),
     BulkEntry.docPayload ⟨term.prefLabel, term.URI, term.definition, term.context⟩]

/-- `updateVocabulary` (lines 54-95): the `bulk` array accumulated by the
loop, two pushes per term, against index `oslo-terminology` and type
`vocabularies`. -/
def updateVocabularyBulk (search : SearchFn) (data : List ITerm) : List BulkEntry :=
  data.foldl (fun bulk term => bulk ++ vocabEntries search term) []

/-- The loop body of `updateApplicationProfile` (lines 100-128) for one
term. -/
def apEntries (search : SearchFn) (term : ITerm) : List BulkEntry :=
  let id := getId search term.URI "oslo-application-profiles" "classes"
  if !(jsTruthy id) then
    [BulkEntry.indexDirective "oslo-application-profiles" "classes",
     BulkEntry.termPayload term]
  else
    [BulkEntry.updateDirective "oslo-application-profiles" "classes" (id.getD ""),
     BulkEntry.docPayload ⟨term.prefLabel, term.URI, term.definition, term.context⟩]

/-- `updateApplicationProfile` (lines 97-138): the `bulk` array
accumulated by the loop, against index `oslo-application-profiles` and
type `classes`. -/
def updateApplicationProfileBulk (search : SearchFn) (data : List ITerm) : List BulkEntry :=
  data.foldl (fun bulk term => bulk ++ apEntries search term) []

/-- `pushDataInBulk` (lines 186-217): the `bulk` array accumulated by the
loop, which pushes two entries for an unresolved term only. -/
def pushDataInBulkBody (search : SearchFn) (type index : String) (data : List ITerm) :
    List BulkEntry :=
  data.foldl
    (fun bulk term =>
      let id := getId search term.URI index type
      if !(jsTruthy id) then
        bulk ++ [BulkEntry.indexDirective index type, BulkEntry.termPayload term]
      else
        bulk)
    []

/-- `updateVocabulary` always ends with `client.bulk({body: bulk}, ...)`
(line 88), unconditionally: the operation makes exactly one bulk call. -/
def updateVocabularyCalls (search : SearchFn) (data : List ITerm) : List (List BulkEntry) :=
  [updateVocabularyBulk search data]

/-- `updateApplicationProfile` likewise calls `client.bulk` once,
unconditionally (line 131). -/
def updateApplicationProfileCalls (search : SearchFn) (data : List ITerm) :
    List (List BulkEntry) :=
  [updateApplicationProfileBulk search data]

/-- `pushDataInBulk` calls `client.bulk` only under `if (bulk.length)`
(lines 205-214): a number is truthy exactly when it is non-zero. -/
def pushDataInBulkCalls (search : SearchFn) (type index : String) (data : List ITerm) :
    List (List BulkEntry) :=
  let bulk := pushDataInBulkBody search type index data
  if bulk.length != 0 then [bulk] else []

/-- A left fold whose step appends a per-element chunk is the flattening
of the per-element chunks after the accumulator. -/
theorem foldl_append_eq_flatMap {α β : Type} (step : List β → α → List β)
    (g : α → List β) (h : ∀ b t, step b t = b ++ g t) :
    ∀ (data : List α) (acc : List β),
      data.foldl step acc = acc ++ data.flatMap g := by
  intro data
  induction data with
  | nil => intro acc; simp
  | cons t rest ih =>
      intro acc
      simp only [List.foldl_cons, h, List.flatMap_cons, ih, List.append_assoc]

/-- The vocabulary bulk list is the in-order concatenation of the
per-term entry pairs. -/
theorem updateVocabularyBulk_eq (search : SearchFn) (data : List ITerm) :
    updateVocabularyBulk search data = data.flatMap (vocabEntries search) := by
  unfold updateVocabularyBulk
  exact foldl_append_eq_flatMap _ _ (fun b t => rfl) data []

/-- The application-profile bulk list is the in-order concatenation of
the per-term entry pairs. -/
theorem updateApplicationProfileBulk_eq (search : SearchFn) (data : List ITerm) :
    updateApplicationProfileBulk search data = data.flatMap (apEntries search) := by
  unfold updateApplicationProfileBulk
  exact foldl_append_eq_flatMap _ _ (fun b t => rfl) data []

/-- The loop body of `pushDataInBulk` (lines 192-203) for one term: two
entries are pushed only when the term does not resolve. -/
def pushEntries (search : SearchFn) (type index : String) (term : ITerm) : List BulkEntry :=
  let id := getId search term.URI index type
  if !(jsTruthy id) then
    [BulkEntry.indexDirective index type, BulkEntry.termPayload term]
  else
    []

/-- The plain-push bulk list is the in-order concatenation of the
per-term contributions. -/
theorem pushDataInBulkBody_eq (search : SearchFn) (type index : String) (data : List ITerm) :
    pushDataInBulkBody search type index data = data.flatMap (pushEntries search type index) := by
  unfold pushDataInBulkBody
  refine foldl_append_eq_flatMap _ _ (fun b t => ?_) data []
  dsimp only
  cases hc : jsTruthy (getId search t.URI index type) <;> simp [pushEntries, hc]

/-- A well-formed engine: every identifier it assigns to a stored
document is a non-empty string. -/
def NonEmptyIds (search : SearchFn) : Prop :=
  ∀ index type uri hit, hit ∈ search index type uri → hit._id ≠ ""

/-- Over a well-formed engine, the truthiness test `if (!id)` applied to
the value of `getId` agrees with `getId` returning an identifier at
all. -/
theorem jsTruthy_getId (search : SearchFn) (h : NonEmptyIds search)
    (uri index type : String) :
    jsTruthy (getId search uri index type) = (getId search uri index type).isSome := by
  cases hg : getId search uri index type with
  | none => rfl
  | some id =>
      obtain ⟨hit, hmem, _, hid⟩ := getId_spec search uri index type id hg
      have hne : id ≠ "" := hid ▸ h index type uri hit hmem
      simp [jsTruthy, hne]

/-- Recognizes an insert directive `{index: ...}`. -/
def isInsertDirective : BulkEntry → Bool
  | BulkEntry.indexDirective _ _ => true
  | _ => false

/-- Recognizes an update directive `{update: ...}`. -/
def isUpdateDirective : BulkEntry → Bool
  | BulkEntry.updateDirective _ _ _ => true
  | _ => false

/-- Flattening per-element chunks of length two yields a list twice as
long as the input. -/
theorem flatMap_pairs_length {α : Type} (f : α → List BulkEntry)
    (hf : ∀ t, (f t).length = 2) (l : List α) :
    (l.flatMap f).length = 2 * l.length := by
  induction l with
  | nil => simp
  | cons t rest ih => simp [List.flatMap_cons, hf, ih, Nat.mul_succ, Nat.add_comm]

/-- Counting directives in a flattened list of per-record pairs, where a
record contributes one update directive when `p` holds of it and one
insert directive otherwise. -/
theorem counts_of_flatMap (f : ITerm → List BulkEntry) (p : ITerm → Bool)
    (hU : ∀ t, ((f t).filter isUpdateDirective).length = if p t then 1 else 0)
    (hI : ∀ t, ((f t).filter isInsertDirective).length = if p t then 0 else 1)
    (data : List ITerm) :
    ((data.flatMap f).filter isUpdateDirective).length = (data.filter p).length ∧
    ((data.flatMap f).filter isInsertDirective).length
      = data.length - (data.filter p).length := by
  induction data with
  | nil => simp
  | cons t rest ih =>
      obtain ⟨ih1, ih2⟩ := ih
      have hle := List.length_filter_le p rest
      cases hp : p t <;>
        constructor <;>
          simp [List.flatMap_cons, List.filter_append, List.filter_cons,
            hU, hI, ih1, ih2, hp] <;>
          omega

/-- Each vocabulary pair has exactly two entries. -/
theorem vocabEntries_length (search : SearchFn) (t : ITerm) :
    (vocabEntries search t).length = 2 := by
  rw [vocabEntries]; split <;> rfl

/-- Each application-profile pair has exactly two entries. -/
theorem apEntries_length (search : SearchFn) (t : ITerm) :
    (apEntries search t).length = 2 := by
  rw [apEntries]; split <;> rfl

/-- Directive counts of one vocabulary pair, over a well-formed
engine. -/
theorem vocabEntries_counts (search : SearchFn) (h : NonEmptyIds search) (t : ITerm) :
    ((vocabEntries search t).filter isUpdateDirective).length
      = (if (getId search t.URI "oslo-terminology" "vocabularies").isSome then 1 else 0) ∧
    ((vocabEntries search t).filter isInsertDirective).length
      = (if (getId search t.URI "oslo-terminology" "vocabularies").isSome then 0 else 1) := by
  simp only [vocabEntries, jsTruthy_getId search h]
  cases hs : (getId search t.URI "oslo-terminology" "vocabularies").isSome <;>
    simp [hs, isUpdateDirective, isInsertDirective]

/-- Directive counts of one application-profile pair, over a well-formed
engine. -/
theorem apEntries_counts (search : SearchFn) (h : NonEmptyIds search) (t : ITerm) :
    ((apEntries search t).filter isUpdateDirective).length
      = (if (getId search t.URI "oslo-application-profiles" "classes").isSome then 1 else 0) ∧
    ((apEntries search t).filter isInsertDirective).length
      = (if (getId search t.URI "oslo-application-profiles" "classes").isSome then 0 else 1) := by
  simp only [apEntries, jsTruthy_getId search h]
  cases hs : (getId search t.URI "oslo-application-profiles" "classes").isSome <;>
    simp [hs, isUpdateDirective, isInsertDirective]

/-- C3: on the full-sync path, for a batch of N records of which M
resolve to an existing identifier, the accumulated bulk list holds
exactly M update directives, N minus M insert directives, and 2N entries
in total, on both `updateVocabulary` and `updateApplicationProfile`. -/
theorem fullSync_directive_counts (search : SearchFn) (data : List ITerm)
    (h : NonEmptyIds search) :
    ((updateVocabularyBulk search data).filter isUpdateDirective).length
      = (data.filter
          (fun t => (getId search t.URI "oslo-terminology" "vocabularies").isSome)).length ∧
    ((updateVocabularyBulk search data).filter isInsertDirective).length
      = data.length - (data.filter
          (fun t => (getId search t.URI "oslo-terminology" "vocabularies").isSome)).length ∧
    (updateVocabularyBulk search data).length = 2 * data.length ∧
    ((updateApplicationProfileBulk search data).filter isUpdateDirective).length
      = (data.filter
          (fun t => (getId search t.URI "oslo-application-profiles" "classes").isSome)).length ∧
    ((updateApplicationProfileBulk search data).filter isInsertDirective).length
      = data.length - (data.filter
          (fun t => (getId search t.URI "oslo-application-profiles" "classes").isSome)).length ∧
    (updateApplicationProfileBulk search data).length = 2 * data.length := by
  rw [updateVocabularyBulk_eq, updateApplicationProfileBulk_eq]
  have hv := counts_of_flatMap (vocabEntries search) _
    (fun t => (vocabEntries_counts search h t).1)
    (fun t => (vocabEntries_counts search h t).2) data
  have ha := counts_of_flatMap (apEntries search) _
    (fun t => (apEntries_counts search h t).1)
    (fun t => (apEntries_counts search h t).2) data
  exact ⟨hv.1, hv.2, flatMap_pairs_length _ (vocabEntries_length search) data,
    ha.1, ha.2, flatMap_pairs_length _ (apEntries_length search) data⟩

/-- A concrete engine for witnesses: one stored document, with URI `u1`
and identifier `id1`, returned when `u1` is queried. -/
def wSearch : SearchFn := fun _ _ uri =>
  if uri == "u1" then [Hit.mk "id1" ⟨"l1", "u1", "d1", "c1"⟩] else []

/-- The witness engine assigns only non-empty identifiers. -/
theorem wSearch_wf : NonEmptyIds wSearch := by
  intro index type uri hit hmem
  unfold wSearch at hmem
  split at hmem
  · simp only [List.mem_singleton] at hmem
    subst hmem
    decide
  · simp at hmem

/-- A concrete batch for witnesses: the first record resolves against
`wSearch`, the second does not. -/
def wData : List ITerm := [⟨"l1", "u1", "d1", "c1"⟩, ⟨"l2", "u2", "d2", "c2"⟩]

/-- Witness for C3: on the two-record batch `wData`, of which one record
resolves, both full-sync paths build one update directive, one insert
directive and four entries. -/
theorem fullSync_directive_counts_witness :
    ((updateVocabularyBulk wSearch wData).filter isUpdateDirective).length = 1 ∧
    ((updateVocabularyBulk wSearch wData).filter isInsertDirective).length = 1 ∧
    (updateVocabularyBulk wSearch wData).length = 4 ∧
    ((updateApplicationProfileBulk wSearch wData).filter isUpdateDirective).length = 1 ∧
    ((updateApplicationProfileBulk wSearch wData).filter isInsertDirective).length = 1 ∧
    (updateApplicationProfileBulk wSearch wData).length = 4 := by
  obtain ⟨h1, h2, h3, h4, h5, h6⟩ := fullSync_directive_counts wSearch wData wSearch_wf
  exact ⟨h1.trans (by decide), h2.trans (by decide), h3.trans (by decide),
    h4.trans (by decide), h5.trans (by decide), h6.trans (by decide)⟩

/-- In a flattening of per-record chunks of length two, the chunk of
record i occupies positions 2i and 2i+1. -/
theorem flatMap_pairs_segment {α : Type} (f : α → List BulkEntry)
    (hf : ∀ t, (f t).length = 2) :
    ∀ (data : List α) (i : Nat) (h : i < data.length),
      ((data.flatMap f).drop (2 * i)).take 2 = f (data.get ⟨i, h⟩) := by
  intro data
  induction data with
  | nil => intro i h; exact absurd h (by simp)
  | cons t rest ih =>
      intro i h
      cases i with
      | zero =>
          simp only [Nat.mul_zero, List.drop_zero, List.flatMap_cons, List.get]
          exact List.take_left' (hf t)
      | succ j =>
          have hdrop : (((t :: rest).flatMap f).drop (2 * (j + 1)))
              = ((rest.flatMap f).drop (2 * j)) := by
            rw [List.flatMap_cons, Nat.mul_succ, Nat.add_comm, ← List.drop_drop,
              List.drop_left' (hf t)]
          rw [hdrop]
          exact ih j (Nat.lt_of_succ_lt_succ h)

/-- C4: on the full-sync path the directive pair built from record i sits
at positions 2i and 2i+1 of the submitted bulk list, so pairs appear in
the same relative order as their source records, on both
`updateVocabulary` and `updateApplicationProfile`. -/
theorem fullSync_order_preserved (search : SearchFn) (data : List ITerm)
    (i : Nat) (h : i < data.length) :
    ((updateVocabularyBulk search data).drop (2 * i)).take 2
      = vocabEntries search (data.get ⟨i, h⟩) ∧
    ((updateApplicationProfileBulk search data).drop (2 * i)).take 2
      = apEntries search (data.get ⟨i, h⟩) := by
  rw [updateVocabularyBulk_eq, updateApplicationProfileBulk_eq]
  exact ⟨flatMap_pairs_segment _ (vocabEntries_length search) data i h,
    flatMap_pairs_segment _ (apEntries_length search) data i h⟩

/-- Witness for C4: on the two-record batch `wData`, the pair at
positions 2 and 3 is the one built from the second record. -/
theorem fullSync_order_preserved_witness :
    ((updateVocabularyBulk wSearch wData).drop (2 * 1)).take 2
      = vocabEntries wSearch (wData.get ⟨1, by decide⟩) ∧
    ((updateApplicationProfileBulk wSearch wData).drop (2 * 1)).take 2
      = apEntries wSearch (wData.get ⟨1, by decide⟩) :=
  fullSync_order_preserved wSearch wData 1 (by decide)

/-- C5: on the plain-push path, resolved records are excluded entirely:
the bulk list is exactly the insert pairs of the unresolved records, its
length is twice the number of unresolved records, and it holds no update
directive. -/
theorem pushDataInBulk_skips_resolved (search : SearchFn) (type index : String)
    (data : List ITerm) (h : NonEmptyIds search) :
    pushDataInBulkBody search type index data
      = (data.filter (fun t => !(getId search t.URI index type).isSome)).flatMap
          (fun t => [BulkEntry.indexDirective index type, BulkEntry.termPayload t]) ∧
    (pushDataInBulkBody search type index data).length
      = 2 * (data.filter (fun t => !(getId search t.URI index type).isSome)).length ∧
    ((pushDataInBulkBody search type index data).filter isUpdateDirective).length = 0 := by
  have hmain : pushDataInBulkBody search type index data
      = (data.filter (fun t => !(getId search t.URI index type).isSome)).flatMap
          (fun t => [BulkEntry.indexDirective index type, BulkEntry.termPayload t]) := by
    rw [pushDataInBulkBody_eq]
    induction data with
    | nil => simp
    | cons t rest ih =>
        rw [List.flatMap_cons, List.filter_cons]
        cases hs : (getId search t.URI index type).isSome <;>
          simp [pushEntries, jsTruthy_getId search h, hs, ih]
  have hupd : ∀ l : List ITerm,
      ((l.flatMap (fun t => [BulkEntry.indexDirective index type,
          BulkEntry.termPayload t])).filter isUpdateDirective).length = 0 := by
    intro l
    induction l with
    | nil => rfl
    | cons t rest ih =>
        simp [List.flatMap_cons, List.filter_append, List.filter_cons,
          isUpdateDirective, ih]
  refine ⟨hmain, ?_, ?_⟩
  · rw [hmain]
    exact flatMap_pairs_length
      (fun t => [BulkEntry.indexDirective index type, BulkEntry.termPayload t])
      (fun t => rfl) _
  · rw [hmain]
    exact hupd _

/-- Witness for C5: on `wData`, whose first record resolves, the
plain-push bulk list holds only the insert pair of the second record. -/
theorem pushDataInBulk_skips_resolved_witness :
    pushDataInBulkBody wSearch "vocabularies" "oslo-terminology" wData
      = [BulkEntry.indexDirective "oslo-terminology" "vocabularies",
         BulkEntry.termPayload ⟨"l2", "u2", "d2", "c2"⟩] ∧
    (pushDataInBulkBody wSearch "vocabularies" "oslo-terminology" wData).length = 2 ∧
    ((pushDataInBulkBody wSearch "vocabularies" "oslo-terminology" wData).filter
        isUpdateDirective).length = 0 := by
  obtain ⟨h1, h2, h3⟩ :=
    pushDataInBulk_skips_resolved wSearch "vocabularies" "oslo-terminology" wData wSearch_wf
  exact ⟨h1.trans (by decide), h2.trans (by decide), h3⟩

/-- Shape of a full-sync pair: either an insert directive followed by the
full term payload, or an update directive followed by the restricted
document payload built from the term. -/
def PairShape (t : ITerm) (l : List BulkEntry) : Prop :=
  (∃ ix ty, l = [BulkEntry.indexDirective ix ty, BulkEntry.termPayload t]) ∨
  (∃ ix ty id, l = [BulkEntry.updateDirective ix ty id,
    BulkEntry.docPayload ⟨t.prefLabel, t.URI, t.definition, t.context⟩])

/-- Each vocabulary pair has the full-sync pair shape. -/
theorem vocabEntries_shape (search : SearchFn) (t : ITerm) :
    PairShape t (vocabEntries search t) := by
  rw [vocabEntries]
  split
  · exact Or.inl ⟨_, _, rfl⟩
  · exact Or.inr ⟨_, _, _, rfl⟩

/-- Each application-profile pair has the full-sync pair shape. -/
theorem apEntries_shape (search : SearchFn) (t : ITerm) :
    PairShape t (apEntries search t) := by
  rw [apEntries]
  split
  · exact Or.inl ⟨_, _, rfl⟩
  · exact Or.inr ⟨_, _, _, rfl⟩

/-- In a flattening of full-sync pairs, an update directive at position i
is immediately followed by the restricted document payload of some input
record. -/
theorem flatMap_update_followed_by_doc (f : ITerm → List BulkEntry)
    (hf : ∀ t, PairShape t (f t)) :
    ∀ (data : List ITerm) (i : Nat) (ix ty id : String),
      (data.flatMap f)[i]? = some (BulkEntry.updateDirective ix ty id) →
      ∃ t, t ∈ data ∧ (data.flatMap f)[i + 1]?
        = some (BulkEntry.docPayload ⟨t.prefLabel, t.URI, t.definition, t.context⟩) := by
  intro data
  induction data with
  | nil => intro i ix ty id h; simp at h
  | cons t rest ih =>
      intro i ix ty id h
      rw [List.flatMap_cons] at h ⊢
      rcases hf t with ⟨ix0, ty0, hpair⟩ | ⟨ix0, ty0, id0, hpair⟩ <;>
        rw [hpair] at h ⊢ <;>
        rcases i with _ | _ | j
      · simp at h
      · simp at h
      · rw [List.getElem?_append_right (by simp)] at h
        obtain ⟨u, hu, hget⟩ := ih (j + 2 - 2) ix ty id (by simpa using h)
        refine ⟨u, List.mem_cons_of_mem t hu, ?_⟩
        rw [List.getElem?_append_right (by simp)]
        simpa using hget
      · refine ⟨t, List.mem_cons_self t rest, ?_⟩
        simp
      · simp at h
      · rw [List.getElem?_append_right (by simp)] at h
        obtain ⟨u, hu, hget⟩ := ih (j + 2 - 2) ix ty id (by simpa using h)
        refine ⟨u, List.mem_cons_of_mem t hu, ?_⟩
        rw [List.getElem?_append_right (by simp)]
        simpa using hget

/-- C7: on the full-sync path, every update directive of the bulk list is
immediately followed by a document payload holding exactly the four
fields prefLabel, URI, definition and context of one input record, with
the URI equal to the record's own URI and no engine identifier, on both
`updateVocabulary` and `updateApplicationProfile`. -/
theorem update_payload_exact_fields (search : SearchFn) (data : List ITerm)
    (i : Nat) (ix ty id : String) :
    ((updateVocabularyBulk search data)[i]? = some (BulkEntry.updateDirective ix ty id) →
      ∃ t, t ∈ data ∧ (updateVocabularyBulk search data)[i + 1]?
        = some (BulkEntry.docPayload ⟨t.prefLabel, t.URI, t.definition, t.context⟩)) ∧
    ((updateApplicationProfileBulk search data)[i]?
        = some (BulkEntry.updateDirective ix ty id) →
      ∃ t, t ∈ data ∧ (updateApplicationProfileBulk search data)[i + 1]?
        = some (BulkEntry.docPayload ⟨t.prefLabel, t.URI, t.definition, t.context⟩)) := by
  rw [updateVocabularyBulk_eq, updateApplicationProfileBulk_eq]
  exact ⟨flatMap_update_followed_by_doc _ (vocabEntries_shape search) data i ix ty id,
    flatMap_update_followed_by_doc _ (apEntries_shape search) data i ix ty id⟩

/-- Witness for C7: on `wData` under `wSearch`, the update directive at
position 0 of the vocabulary bulk list is followed by the restricted
document payload of a record of the batch. -/
theorem update_payload_exact_fields_witness :
    ∃ t, t ∈ wData ∧ (updateVocabularyBulk wSearch wData)[0 + 1]?
      = some (BulkEntry.docPayload ⟨t.prefLabel, t.URI, t.definition, t.context⟩) :=
  (update_payload_exact_fields wSearch wData 0 "oslo-terminology" "vocabularies" "id1").1
    (by decide)

/-- Constant renaming from the vocabulary path to the application-profile
path. -/
def renameConstant (s : String) : String :=
  if s == "oslo-terminology" then "oslo-application-profiles"
  else if s == "vocabularies" then "classes"
  else s

/-- Renaming of a bulk entry: only the collection constants of directives
change; payloads and identifiers are untouched. -/
def renameEntry : BulkEntry → BulkEntry
  | BulkEntry.indexDirective ix ty =>
      BulkEntry.indexDirective (renameConstant ix) (renameConstant ty)
  | BulkEntry.updateDirective ix ty id =>
      BulkEntry.updateDirective (renameConstant ix) (renameConstant ty) id
  | e => e

/-- C10: for any fixed resolver behaviour, `updateApplicationProfile`
builds exactly the bulk list `updateVocabulary` builds, with the
constants oslo-terminology and vocabularies replaced by
oslo-application-profiles and classes. -/
theorem updateApplicationProfile_refines_updateVocabulary
    (s1 s2 : SearchFn) (data : List ITerm)
    (h : ∀ uri, getId s2 uri "oslo-application-profiles" "classes"
        = getId s1 uri "oslo-terminology" "vocabularies") :
    updateApplicationProfileBulk s2 data
      = (updateVocabularyBulk s1 data).map renameEntry := by
  rw [updateVocabularyBulk_eq, updateApplicationProfileBulk_eq]
  have hpair : ∀ t : ITerm, apEntries s2 t = (vocabEntries s1 t).map renameEntry := by
    intro t
    rw [apEntries, vocabEntries, h t.URI]
    cases hc : jsTruthy (getId s1 t.URI "oslo-terminology" "vocabularies") <;>
      simp only [hc, Bool.not_false, Bool.not_true, if_true, if_false, List.map_cons,
        List.map_nil, renameEntry] <;>
      rfl
  induction data with
  | nil => simp
  | cons t rest ih => simp [List.flatMap_cons, hpair, ih]

/-- Witness for C10: with the witness engine on both paths, whose answers
agree for the two constant pairs, the application-profile bulk list for
`wData` is the renamed vocabulary bulk list. -/
theorem updateApplicationProfile_refines_updateVocabulary_witness :
    updateApplicationProfileBulk wSearch wData
      = (updateVocabularyBulk wSearch wData).map renameEntry :=
  updateApplicationProfile_refines_updateVocabulary wSearch wSearch wData
    (fun _ => rfl)

/-- The engine state seen by the bootstrap code: the names of the
existing indexes. -/
structure ESState where
  indices : List String
deriving DecidableEq

/-- `checkIfIndexExists` (lines 167-172): asks the engine whether the
index exists. -/
def checkIfIndexExists (st : ESState) (index : String) : Bool :=
  st.indices.contains index

/-- `createIndex` (lines 174-184): asks the engine to create the index;
afterwards the index exists. -/
def createIndex (st : ESState) (name : String) : ESState :=
  ⟨st.indices ++ [name]⟩

/-- The ensure step of `setupElasticsearch` for one index (lines 13-16
and 18-21): if the existence check is negative, create the index. The
second component counts the creation calls issued. -/
def ensureIndex (st : ESState) (name : String) : ESState × Nat :=
  if !(checkIfIndexExists st name) then (createIndex st name, 1) else (st, 0)

/-- `setupElasticsearch` (lines 8-22): checks both well-known indexes,
then creates each missing one. The second component counts the creation
calls issued. -/
def setupElasticsearch (st : ESState) : ESState × Nat :=
  let terminologyIndexExists := checkIfIndexExists st "oslo-terminology"
  let applicationProfileIndexExists := checkIfIndexExists st "oslo-application-profiles"
  let r1 := if !terminologyIndexExists then (createIndex st "oslo-terminology", 1) else (st, 0)
  let r2 := if !applicationProfileIndexExists then
      (createIndex r1.1 "oslo-application-profiles", 1) else (r1.1, 0)
  (r2.1, r1.2 + r2.2)

/-- After a creation call the existence check for that index reports
true. -/
theorem checkIfIndexExists_createIndex (st : ESState) (name : String) :
    checkIfIndexExists (createIndex st name) name = true := by
  simp [checkIfIndexExists, createIndex]

/-- C6: the ensure step is idempotent: it issues no creation call exactly
when the existence check reports presence, it leaves an existing index
untouched without error, and a second ensure after a first one never
issues a creation call. -/
theorem ensureIndex_idempotent (st : ESState) (name : String) :
    ((ensureIndex st name).2 = 0 ↔ checkIfIndexExists st name = true) ∧
    (checkIfIndexExists st name = true → ensureIndex st name = (st, 0)) ∧
    (ensureIndex (ensureIndex st name).1 name).2 = 0 := by
  refine ⟨?_, fun h => by simp [ensureIndex, h], ?_⟩
  · unfold ensureIndex
    cases hc : checkIfIndexExists st name <;> simp [hc]
  · unfold ensureIndex
    cases hc : checkIfIndexExists st name <;>
      simp [hc, checkIfIndexExists_createIndex]

/-- Witness for C6: ensuring the already-existing index oslo-terminology
leaves the state unchanged and issues no creation call. -/
theorem ensureIndex_idempotent_witness :
    ensureIndex ⟨["oslo-terminology"]⟩ "oslo-terminology"
      = (⟨["oslo-terminology"]⟩, 0) :=
  (ensureIndex_idempotent ⟨["oslo-terminology"]⟩ "oslo-terminology").2.1 (by decide)

/-- Counterexample to C8 as stated: on the empty batch the full-sync path
still issues one bulk call (line 88 runs unconditionally), so the number
of bulk calls is not zero. -/
theorem emptyBatch_fullSync_still_calls_bulk :
    ¬ ((updateVocabularyCalls (fun _ _ _ => []) []).length = 0) := by
  decide

/-- C8 amended: on the empty batch the plain-push path issues no bulk
call, while each full-sync path still issues exactly one bulk call,
carrying an empty operation list; none of this is an error. -/
theorem emptyBatch_bulk_calls (search : SearchFn) (type index : String) :
    pushDataInBulkCalls search type index [] = [] ∧
    updateVocabularyCalls search [] = [[]] ∧
    updateApplicationProfileCalls search [] = [[]] := by
  refine ⟨?_, rfl, rfl⟩
  simp [pushDataInBulkCalls, pushDataInBulkBody]

/-- A log line the ping callback may emit. -/
inductive LogLine where
  | clusterDown
  | clusterRunning
deriving DecidableEq

/-- The ping callback of `connectToElasticsearch` (lines 151-162): from
whether the probe reported an error to the log lines emitted and whether
`process.exit(1)` is invoked. The success log of the inner else branch
is unreachable, because it is guarded by the same `if (error)` twice. -/
def pingCallback (error : Bool) : List LogLine × Bool :=
  if error then
    (if error then ([LogLine.clusterDown], true)
     else ([LogLine.clusterRunning], false))
  else
    ([], false)

/-- C9, evaluated on the code: when the probe reports failure the
callback logs the marked error and terminates the process, but when the
probe reports success it logs nothing at all, against the claim that
success merely logs. -/
theorem pingCallback_eval :
    pingCallback true = ([LogLine.clusterDown], true) ∧
    pingCallback false = ([], false) := by
  decide

end ElasticsearchDAO
